import Mathlib

/-!
Verification of the rate-limit record resolution and normalization engine of
the codex-ratelimit VS Code extension (source file `utils/parser.ts`).

The engine is embedded shallowly:

* A JavaScript number is modelled by `JSVal`: a finite value (an exact
  rational `fin q`), `posInf`, `negInf`, or `nan`.  `JSON.parse` yields a
  finite double for ordinary literals and `Infinity` / `-Infinity` for
  overflow literals such as `1e999` / `-1e999`; it never yields `NaN`,
  but `NaN` arises downstream (for example from `Infinity / Infinity`),
  so the arithmetic on `JSVal` follows the IEEE rules for the special
  values, with finite arithmetic kept exact (double rounding is not
  modelled; the signed zero is identified with 0).  The `typeof x ===
  'number'` guards are modelled by the field being present (`some v`) and
  the `Number.isNaN` guards by `JSVal.isNaN`.
* A rate-limit field of a parsed log line is an `Option JSVal`: `some v`
  when the field is present and holds a number, `none` when it is absent
  or holds a non-numeric value.  The token-usage counters, which every
  claim treats as opaque pass-through data, are carried as exact
  rationals.
* A JavaScript `Date` is modelled as `Option ℤ`: `some ms` for a valid date
  holding the integer time value `ms` (milliseconds since the epoch), `none`
  for an Invalid Date (time value `NaN`).  `new Date(v)` clips the time
  value to ±8.64e15 ms and truncates toward zero, yielding an Invalid Date
  outside that range and on every non-finite argument.
* Wall-clock reads (`new Date()`, `Date.now()`) are passed in as an explicit
  `nowMs` parameter.
* The file system seen by the resolver is an explicit `SessionFS` record:
  the existence of the session root and of today's day-directory, the
  candidate files of today's directory and of the whole 7-day look-back with
  their modification times, and the parsed content of each file.
-/

/-- A JavaScript number: a finite value (exact rational), positive or
negative infinity, or `NaN`.  `JSON.parse` produces `fin`, `posInf` or
`negInf` (overflow literals such as `1e999` evaluate to `Infinity`), never
`nan`; `nan` arises from arithmetic such as `Infinity / Infinity`. -/
inductive JSVal where
  | nan : JSVal
  | posInf : JSVal
  | negInf : JSVal
  | fin : ℚ → JSVal
deriving DecidableEq, Repr

/-- The `Number.isNaN` test. -/
def JSVal.isNaN : JSVal → Bool
  | .nan => true
  | _ => false

/-- JavaScript `<` on numbers: false whenever an operand is `NaN`. -/
def jsLt : JSVal → JSVal → Bool
  | .nan, _ => false
  | _, .nan => false
  | .negInf, .negInf => false
  | .negInf, _ => true
  | _, .negInf => false
  | .posInf, _ => false
  | .fin _, .posInf => true
  | .fin a, .fin b => decide (a < b)

/-- JavaScript `<=` on numbers: false whenever an operand is `NaN`. -/
def jsLe : JSVal → JSVal → Bool
  | .nan, _ => false
  | _, .nan => false
  | .negInf, _ => true
  | _, .negInf => false
  | .posInf, .posInf => true
  | .posInf, _ => false
  | .fin _, .posInf => true
  | .fin a, .fin b => decide (a ≤ b)

/-- JavaScript addition with the IEEE special-value rules. -/
def jsAdd : JSVal → JSVal → JSVal
  | .nan, _ => .nan
  | _, .nan => .nan
  | .posInf, .negInf => .nan
  | .negInf, .posInf => .nan
  | .posInf, _ => .posInf
  | _, .posInf => .posInf
  | .negInf, _ => .negInf
  | _, .negInf => .negInf
  | .fin a, .fin b => .fin (a + b)

/-- JavaScript subtraction with the IEEE special-value rules. -/
def jsSub : JSVal → JSVal → JSVal
  | .nan, _ => .nan
  | _, .nan => .nan
  | .posInf, .posInf => .nan
  | .negInf, .negInf => .nan
  | .posInf, _ => .posInf
  | _, .posInf => .negInf
  | .negInf, _ => .negInf
  | _, .negInf => .posInf
  | .fin a, .fin b => .fin (a - b)

/-- JavaScript multiplication with the IEEE special-value rules
(`0 * Infinity = NaN`). -/
def jsMul : JSVal → JSVal → JSVal
  | .nan, _ => .nan
  | _, .nan => .nan
  | .posInf, .posInf => .posInf
  | .posInf, .negInf => .negInf
  | .negInf, .posInf => .negInf
  | .negInf, .negInf => .posInf
  | .posInf, .fin q => if 0 < q then .posInf else if q < 0 then .negInf else .nan
  | .fin q, .posInf => if 0 < q then .posInf else if q < 0 then .negInf else .nan
  | .negInf, .fin q => if 0 < q then .negInf else if q < 0 then .posInf else .nan
  | .fin q, .negInf => if 0 < q then .negInf else if q < 0 then .posInf else .nan
  | .fin a, .fin b => .fin (a * b)

/-- JavaScript division with the IEEE special-value rules
(`Infinity / Infinity = NaN`, `x / 0` signed infinity, `0 / 0 = NaN`; the
signed zero is identified with 0). -/
def jsDiv : JSVal → JSVal → JSVal
  | .nan, _ => .nan
  | _, .nan => .nan
  | .posInf, .posInf => .nan
  | .posInf, .negInf => .nan
  | .negInf, .posInf => .nan
  | .negInf, .negInf => .nan
  | .posInf, .fin q => if q < 0 then .negInf else .posInf
  | .negInf, .fin q => if q < 0 then .posInf else .negInf
  | .fin _, .posInf => .fin 0
  | .fin _, .negInf => .fin 0
  | .fin a, .fin b =>
    if b = 0 then (if a = 0 then .nan else if 0 < a then .posInf else .negInf)
    else .fin (a / b)

/-- JavaScript `Math.min`: `NaN` if an operand is `NaN`, else the smaller. -/
def jsMin : JSVal → JSVal → JSVal
  | .nan, _ => .nan
  | _, .nan => .nan
  | a, b => if jsLt b a then b else a

/-- JavaScript `Math.max`: `NaN` if an operand is `NaN`, else the larger. -/
def jsMax : JSVal → JSVal → JSVal
  | .nan, _ => .nan
  | _, .nan => .nan
  | a, b => if jsLt a b then b else a

/-- The five token counters of a `token_count` payload (`TokenUsage` in
`interfaces/types.ts`). -/
structure TokenUsage where
  input_tokens : ℚ
  cached_input_tokens : ℚ
  output_tokens : ℚ
  reasoning_output_tokens : ℚ
  total_tokens : ℚ
deriving DecidableEq, Repr

/-- The `info` section of a `token_count` payload; either usage object may be
absent in the raw JSON. -/
structure UsageInfo where
  total_token_usage : Option TokenUsage
  last_token_usage : Option TokenUsage
deriving DecidableEq, Repr

/-- One raw rate-limit window descriptor as read from a log line
(`RateLimit` in `interfaces/types.ts`; the runtime JSON may also carry the
absolute `resets_at` field used by `calculateResetTime`).  Each field is
`some v` when present and numeric — including the infinities produced by
overflow literals such as `1e999` — and `none` when absent or holding a
non-numeric value. -/
structure RateLimit where
  used_percent : Option JSVal
  resets_at : Option JSVal
  resets_in_seconds : Option JSVal
  window_minutes : Option JSVal
deriving DecidableEq, Repr

/-- The optional `rate_limits` object of a `token_count` payload. -/
structure RateLimits where
  primary : Option RateLimit
  secondary : Option RateLimit
deriving DecidableEq, Repr

/-- A `token_count` payload: optional `rate_limits` and optional `info`. -/
structure TokenCountPayload where
  rate_limits : Option RateLimits
  info : Option UsageInfo
deriving DecidableEq, Repr

/-- A qualifying event record (`type = event_msg`, `payload.type =
token_count`).  `timestampMs` is the result of parsing the record's
self-reported timestamp string via
`new Date(record.timestamp.replace(Z, +00:00))`: `some ms` when the string
parses to a valid instant, `none` when it does not (Invalid Date). -/
structure EventRecord where
  timestampMs : Option ℤ
  payload : TokenCountPayload
deriving DecidableEq, Repr

/-- One nonempty line of a session log file, as seen by `parseSessionFile`.
`malformed` covers every line whose processing throws and is caught by the
per-line handler: text that is not valid JSON, and JSON whose `timestamp`
field is absent or not a string (so that `.replace` throws).
`nonQualifying` is valid JSON that is not an `event_msg` / `token_count`
record. -/
inductive SessionLine where
  | malformed : SessionLine
  | nonQualifying : SessionLine
  | qualifying : EventRecord → SessionLine
deriving DecidableEq, Repr

/-- Largest representable `Date` time value, in milliseconds (ECMAScript
TimeClip bound 8.64e15). -/
def MAX_TIME_MS : ℚ := 8640000000000000

/-- Truncation toward zero, as ECMAScript ToIntegerOrInfinity does on a
finite argument. -/
def truncQ (q : ℚ) : ℤ :=
  if 0 ≤ q then ⌊q⌋ else ⌈q⌉

/-- Model of `new Date(q)` for a finite number `q` of milliseconds: valid with the
clipped integer time value inside ±8.64e15 ms, Invalid Date outside. -/
def dateFromQ (q : ℚ) : Option ℤ :=
  if |q| ≤ MAX_TIME_MS then some (truncQ q) else none

/-- Model of `new Date(v)` for an arbitrary number `v`: an infinite or `NaN`
time value gives an Invalid Date. -/
def dateFromJS : JSVal → Option ℤ
  | .fin q => dateFromQ q
  | _ => none

/-- The `getTime()` of a `Date`: the integer time value of a valid date,
`NaN` for an Invalid Date. -/
def dateVal : Option ℤ → JSVal
  | some t => .fin (t : ℚ)
  | none => .nan

/-- JavaScript `>` on two `Date`s (via their numeric time values): `true`
exactly when both are valid and the first time value is strictly greater;
any comparison involving `NaN` is `false`. -/
def dateGt : Option ℤ → Option ℤ → Bool
  | some a, some b => decide (b < a)
  | _, _ => false

/-- The `else if` branch of `calculateResetTime` (source lines 22-24):
`resetTime` from `recordTimestamp.getTime() + resets_in_seconds * 1000`
when that field is present and not `NaN`. -/
def resolveFromRelative (recordTs : Option ℤ) (ris : Option JSVal) : Option (Option ℤ) :=
  match ris with
  | some w =>
    if w.isNaN then none
    else some (dateFromJS (jsAdd (dateVal recordTs) (jsMul w (.fin 1000))))
  | none => none

/-- The `resetTime` local of `calculateResetTime` just before the failure
check (lines 18-24 of the source): `none` when neither reset field passes
its `typeof number && !isNaN` guard (`resetTime` still `null`), `some none`
when a branch ran but built an Invalid Date, `some (some m)` when a branch
produced a valid date. -/
def resolveResetTime (recordTs : Option ℤ) (rl : RateLimit) : Option (Option ℤ) :=
  match rl.resets_at with
  | some v =>
    if v.isNaN then resolveFromRelative recordTs rl.resets_in_seconds
    else some (dateFromJS (jsMul v (.fin 1000)))
  | none => resolveFromRelative recordTs rl.resets_in_seconds

/-- Result record of `calculateResetTime`.  `resetTime` is a `Date` and may
be invalid (`none`) when the failure branch returns an invalid record
timestamp. -/
structure CalcReset where
  resetTime : Option ℤ
  isOutdated : Bool
  secondsUntilReset : ℤ
deriving DecidableEq, Repr

/-- Function `calculateResetTime` (source lines 16-38): resolve the reset instant
from `resets_at` (preferred) or `record timestamp + resets_in_seconds`; on
failure (`!resetTime || Number.isNaN(resetTime.getTime())`) return the
record timestamp with `isOutdated = true` and `secondsUntilReset = 0`;
otherwise compare against the current time. -/
def calculateResetTime (recordTs : Option ℤ) (nowMs : ℤ) (rl : RateLimit) : CalcReset :=
  match resolveResetTime recordTs rl with
  | some (some m) =>
    { resetTime := some m
      isOutdated := decide (m < nowMs)
      secondsUntilReset := max 0 ((m - nowMs).fdiv 1000) }
  | _ =>
    { resetTime := recordTs
      isOutdated := true
      secondsUntilReset := 0 }

/-- A field value usable as a number: present and not `NaN`. -/
def usableNum : Option JSVal → Option JSVal
  | some v => if v.isNaN then none else some v
  | none => none

/-- Reset-instant resolution as the specification words it: prefer the
absolute `resets_at` field whenever present and numeric; otherwise derive
the instant from record-timestamp plus `resets_in_seconds` when that field
is present and numeric; otherwise resolution fails.  (`none` merges "no
numeric field" and "field produced an invalid date".) -/
def specResolveReset (recordTs : Option ℤ) (rl : RateLimit) : Option ℤ :=
  match usableNum rl.resets_at with
  | some v => dateFromJS (jsMul v (.fin 1000))
  | none =>
    match usableNum rl.resets_in_seconds with
    | some w => dateFromJS (jsAdd (dateVal recordTs) (jsMul w (.fin 1000)))
    | none => none

/-- A normalized rate-limit window (the `primary` / `secondary` objects of
`RateLimitData`).  `time_percent` is a JavaScript number: it can be `NaN`
when the division produces `Infinity / Infinity`. -/
structure NormalizedWindow where
  used_percent : Option JSVal
  time_percent : JSVal
  reset_time : Option ℤ
  outdated : Bool
  window_minutes : JSVal
deriving DecidableEq, Repr

/-- The `windowMinutes` local of the per-window block (source line 226):
`typeof rawWindowMinutes === 'number' && rawWindowMinutes > 0 ?
rawWindowMinutes : 0`.  `Infinity` passes the guard; `NaN` and `-Infinity`
do not. -/
def windowMinutesOf (rl : RateLimit) : JSVal :=
  match rl.window_minutes with
  | some v => if jsLt (.fin 0) v then v else .fin 0
  | none => .fin 0

/-- The `timePercent` local of the per-window block (source lines 229-238):
0 for a non-positive window, 100 for an outdated window, otherwise the
bounded elapsed fraction of the window — over JavaScript-number arithmetic,
so `Infinity / Infinity` yields `NaN`. -/
def timePercentOf (c : CalcReset) (windowMinutes : JSVal) : JSVal :=
  let windowSeconds := jsMul windowMinutes (.fin 60)
  if jsLe windowSeconds (.fin 0) then .fin 0
  else if c.isOutdated then .fin 100
  else
    let elapsedSeconds := jsSub windowSeconds (.fin (c.secondsUntilReset : ℚ))
    let boundedElapsedSeconds := jsMax (.fin 0) (jsMin windowSeconds elapsedSeconds)
    jsMul (jsDiv boundedElapsedSeconds windowSeconds) (.fin 100)

/-- Normalization of one raw window descriptor: the per-window block of
`getRateLimitData` (source lines 222-247; the secondary block, lines
250-275, is textually identical), over JavaScript-number arithmetic. -/
def normalizeWindow (recordTs : Option ℤ) (nowMs : ℤ) (rl : RateLimit) : NormalizedWindow :=
  let c := calculateResetTime recordTs nowMs rl
  let windowMinutes := windowMinutesOf rl
  { used_percent := rl.used_percent
    time_percent := jsMax (.fin 0) (jsMin (.fin 100) (timePercentOf c windowMinutes))
    reset_time := c.resetTime
    outdated := c.isOutdated
    window_minutes := windowMinutes }

/-- One step of the scan loop of `parseSessionFile` (source lines 48-67).
The state is `null` or the pair (`latestTimestamp`, `latestRecord`); a
malformed line is skipped by the per-line catch, a non-qualifying line by
the type check, and a qualifying record replaces the state exactly when its
timestamp compares strictly greater. -/
def psfStep (st : Option (Option ℤ × EventRecord)) (line : SessionLine) :
    Option (Option ℤ × EventRecord) :=
  match line with
  | .qualifying r =>
    match st with
    | none => some (r.timestampMs, r)
    | some (ts, best) =>
      if dateGt r.timestampMs ts then some (r.timestampMs, r) else some (ts, best)
  | _ => st

/-- Function `parseSessionFile` (source lines 40-74) on the nonempty lines of one
file: fold the scan step over the lines and return the surviving record. -/
def parseSessionFile (lines : List SessionLine) : Option EventRecord :=
  (lines.foldl psfStep none).map Prod.snd

/-- The qualifying records of a file, in line order. -/
def qualRecords : List SessionLine → List EventRecord
  | [] => []
  | .qualifying r :: rest => r :: qualRecords rest
  | .malformed :: rest => qualRecords rest
  | .nonQualifying :: rest => qualRecords rest

/-- The scan loop of `parseSessionFile` restricted to the qualifying
records: same strict-greater replacement rule, tracking only the record. -/
def bestRecordAux : Option EventRecord → List EventRecord → Option EventRecord
  | acc, [] => acc
  | none, r :: rest => bestRecordAux (some r) rest
  | some b, r :: rest =>
    bestRecordAux (if dateGt r.timestampMs b.timestampMs then some r else some b) rest

/-- The file system seen by `findLatestTokenCountRecord`, made explicit:
existence of the session root and of today's day-directory, the candidate
`rollout-*.jsonl` files of today's directory and of the whole 7-day
look-back with their `mtimeMs`, and each file's parsed nonempty lines.
Files dropped by a failing `stat` or `glob` are simply absent from the
lists. -/
structure SessionFS where
  rootExists : Bool
  todayDirExists : Bool
  todayFiles : List (String × ℤ)
  allFiles : List (String × ℤ)
  content : String → List SessionLine

/-- Insert a (file, mtime) pair into a list sorted by mtime descending,
after every entry with an mtime greater than or equal to its own (the
stable order produced by `sort((a, b) => b.mtimeMs - a.mtimeMs)`). -/
def insertByMtimeDesc (x : String × ℤ) : List (String × ℤ) → List (String × ℤ)
  | [] => [x]
  | y :: ys => if y.2 < x.2 then x :: y :: ys else y :: insertByMtimeDesc x ys

/-- Stable sort by modification time descending (source lines 111 and 151). -/
def sortByMtimeDesc (l : List (String × ℤ)) : List (String × ℤ) :=
  l.foldl (fun acc x => insertByMtimeDesc x acc) []

/-- Scan a list of candidate files in order via the Reader, returning the
first file whose `parseSessionFile` yields a record (the loops at source
lines 153-159 and 167-176). -/
def scanFiles (fs : SessionFS) : List (String × ℤ) → Option (String × EventRecord)
  | [] => none
  | (f, _) :: rest =>
    match parseSessionFile (fs.content f) with
    | some r => some (f, r)
    | none => scanFiles fs rest

/-- The phase-1 candidate list (source lines 133-151): today's directory's
files whose modification time is within the last hour, sorted by
modification time descending; empty when today's directory does not exist. -/
def phase1Files (fs : SessionFS) (nowMs : ℤ) : List (String × ℤ) :=
  if fs.todayDirExists then
    sortByMtimeDesc (fs.todayFiles.filter fun p => decide (nowMs - 3600000 ≤ p.2))
  else []

/-- Function `findLatestTokenCountRecord` (source lines 115-179): `none` when the
session root does not exist; otherwise scan phase 1, and if it yields
nothing fall back to the full 7-day candidate list sorted by mtime
descending, skipping the files already attempted in phase 1 (in the
fallback every phase-1 file has been attempted, so the `attemptedFiles` set
equals the phase-1 list). -/
def findLatestTokenCountRecord (fs : SessionFS) (nowMs : ℤ) :
    Option (String × EventRecord) :=
  if fs.rootExists then
    match scanFiles fs (phase1Files fs nowMs) with
    | some res => some res
    | none =>
      let attempted := (phase1Files fs nowMs).map Prod.fst
      scanFiles fs ((sortByMtimeDesc fs.allFiles).filter fun p => !(attempted.contains p.1))
  else none

/-- The overall scan order of the two-phase resolver as the specification
describes it: the phase-1 list (today's directory, mtime within the last
hour, mtime descending) followed by the full look-back candidates sorted by
mtime descending with the already-attempted files removed. -/
def scanOrder (fs : SessionFS) (nowMs : ℤ) : List (String × ℤ) :=
  phase1Files fs nowMs ++
    (sortByMtimeDesc fs.allFiles).filter
      (fun p => !(((phase1Files fs nowMs).map Prod.fst).contains p.1))

/-- Function `createEmptyTokenUsage` (source lines 293-301). -/
def createEmptyTokenUsage : TokenUsage :=
  { input_tokens := 0
    cached_input_tokens := 0
    output_tokens := 0
    reasoning_output_tokens := 0
    total_tokens := 0 }

/-- The snapshot assembled by `getRateLimitData` (`RateLimitData` in
`interfaces/types.ts`). -/
structure RateLimitData where
  file_path : String
  record_timestampMs : Option ℤ
  current_timeMs : ℤ
  total_usage : TokenUsage
  last_usage : TokenUsage
  primary : Option NormalizedWindow
  secondary : Option NormalizedWindow

/-- Type `ParseResult`: the result shape `found: false, error` or `{found: true, data}`. -/
inductive ParseResult where
  | failure : String → ParseResult
  | success : RateLimitData → ParseResult

/-- Function `getRateLimitData` (source lines 181-291), with the configuration
lookup abstracted into the `SessionFS` argument and the wall clock passed
as `nowMs`.  A `null` resolver result yields the fixed not-found reason;
otherwise the snapshot is assembled, defaulting missing usage objects to
all-zero counters and normalizing each window that is present. -/
def getRateLimitData (fs : SessionFS) (nowMs : ℤ) : ParseResult :=
  match findLatestTokenCountRecord fs nowMs with
  | none => .failure ("No token_count events found in session files")
  | some (file, record) =>
    let rateLimits := record.payload.rate_limits.getD { primary := none, secondary := none }
    let info := record.payload.info
    let recordTs := record.timestampMs
    .success
      { file_path := file
        record_timestampMs := recordTs
        current_timeMs := nowMs
        total_usage := (info.bind (·.total_token_usage)).getD createEmptyTokenUsage
        last_usage := (info.bind (·.last_token_usage)).getD createEmptyTokenUsage
        primary := rateLimits.primary.map (normalizeWindow recordTs nowMs)
        secondary := rateLimits.secondary.map (normalizeWindow recordTs nowMs) }

lemma dateGt_some_some (a b : ℤ) : dateGt (some a) (some b) = decide (b < a) := rfl

lemma dateGt_none_right (a : Option ℤ) : dateGt a none = false := by
  cases a <;> rfl

lemma foldl_psfStep_eq_bestRecordAux (lines : List SessionLine) :
    ∀ acc : Option EventRecord,
      lines.foldl psfStep (acc.map fun r => (r.timestampMs, r)) =
        (bestRecordAux acc (qualRecords lines)).map fun r => (r.timestampMs, r) := by
  induction lines with
  | nil => intro acc; cases acc <;> simp [qualRecords, bestRecordAux]
  | cons l rest ih =>
    intro acc
    cases l with
    | malformed => simpa [qualRecords, psfStep] using ih acc
    | nonQualifying => simpa [qualRecords, psfStep] using ih acc
    | qualifying r =>
      cases acc with
      | none => simpa [psfStep, qualRecords, bestRecordAux] using ih (some r)
      | some b =>
        by_cases hgt : dateGt r.timestampMs b.timestampMs = true
        · simpa [psfStep, hgt, qualRecords, bestRecordAux] using ih (some r)
        · have hgt' : dateGt r.timestampMs b.timestampMs = false := by
            revert hgt; cases dateGt r.timestampMs b.timestampMs <;> simp
          simpa [psfStep, hgt', qualRecords, bestRecordAux] using ih (some b)

lemma parseSessionFile_eq_bestRecord (lines : List SessionLine) :
    parseSessionFile lines = bestRecordAux none (qualRecords lines) := by
  unfold parseSessionFile
  have h := foldl_psfStep_eq_bestRecordAux lines none
  simp only [Option.map_none'] at h
  rw [h]
  cases bestRecordAux none (qualRecords lines) <;> simp

lemma foldl_psfStep_noneTs (r : EventRecord) :
    ∀ rest : List SessionLine, rest.foldl psfStep (some (none, r)) = some (none, r) := by
  intro rest
  induction rest with
  | nil => rfl
  | cons l rest ih =>
    cases l with
    | malformed => simpa [psfStep] using ih
    | nonQualifying => simpa [psfStep] using ih
    | qualifying r' =>
      have : psfStep (some (none, r)) (.qualifying r') = some (none, r) := by
        simp [psfStep, dateGt_none_right]
      rw [List.foldl_cons, this]; exact ih

lemma bestRecordAux_firstMax (recs : List EventRecord) :
    ∀ b : EventRecord,
      (∀ x ∈ b :: recs, x.timestampMs.isSome = true) →
      ∃ l1 l2 w, bestRecordAux (some b) recs = some w ∧
        b :: recs = l1 ++ w :: l2 ∧
        (∀ x ∈ l1, dateGt w.timestampMs x.timestampMs = true) ∧
        (∀ x ∈ l2, dateGt x.timestampMs w.timestampMs = false) := by
  induction recs with
  | nil =>
    intro b _
    exact ⟨[], [], b, rfl, rfl, by simp, by simp⟩
  | cons r rest ih =>
    intro b h
    obtain ⟨tb, htb⟩ := Option.isSome_iff_exists.mp (h b (by simp))
    obtain ⟨tr, htr⟩ := Option.isSome_iff_exists.mp (h r (by simp))
    by_cases hgt : dateGt r.timestampMs b.timestampMs = true
    · have hstep : bestRecordAux (some b) (r :: rest) = bestRecordAux (some r) rest := by
        simp [bestRecordAux, hgt]
      have hsub : ∀ x ∈ r :: rest, x.timestampMs.isSome = true := by
        intro x hx; exact h x (List.mem_cons_of_mem b hx)
      obtain ⟨l1, l2, w, hbest, hsplit, h1, h2⟩ := ih r hsub
      have hwmem : w ∈ r :: rest := by
        rw [hsplit]; exact List.mem_append_right _ (List.mem_cons_self w l2)
      obtain ⟨tw, htw⟩ := Option.isSome_iff_exists.mp (hsub w hwmem)
      refine ⟨b :: l1, l2, w, hstep.trans hbest, by rw [List.cons_append, ← hsplit], ?_, h2⟩
      intro x hx
      rcases List.mem_cons.mp hx with hxb | hxl1
      · subst hxb
        cases l1 with
        | nil =>
          have hw : r = w := by simpa using congrArg (fun l => l.head?) hsplit
          exact hw ▸ hgt
        | cons a l1' =>
          have ha : r = a ∧ rest = l1' ++ w :: l2 := by
            rw [List.cons_append] at hsplit
            simpa using hsplit
          have hwr : dateGt w.timestampMs r.timestampMs = true := by
            apply h1 r; rw [ha.1]; exact List.mem_cons_self _ _
          rw [htr, htw, dateGt_some_some, decide_eq_true_eq] at hwr
          rw [htb, htr, dateGt_some_some, decide_eq_true_eq] at hgt
          rw [htb, htw, dateGt_some_some, decide_eq_true_eq]
          exact lt_trans hgt hwr
      · exact h1 x hxl1
    · have hgt' : dateGt r.timestampMs b.timestampMs = false := by
        revert hgt; cases dateGt r.timestampMs b.timestampMs <;> simp
      have hstep : bestRecordAux (some b) (r :: rest) = bestRecordAux (some b) rest := by
        simp [bestRecordAux, hgt']
      have hsub : ∀ x ∈ b :: rest, x.timestampMs.isSome = true := by
        intro x hx
        rcases List.mem_cons.mp hx with hxb | hxr
        · exact hxb ▸ h b (by simp)
        · exact h x (List.mem_cons_of_mem b (List.mem_cons_of_mem r hxr))
      obtain ⟨l1, l2, w, hbest, hsplit, h1, h2⟩ := ih b hsub
      cases l1 with
      | nil =>
        have hw : b = w ∧ rest = l2 := by
          simpa using hsplit
        refine ⟨[], r :: rest, b, ?_, by simp, by simp, ?_⟩
        · rw [hstep, hbest, ← hw.1]
        · intro x hx
          rcases List.mem_cons.mp hx with hxr | hxrest
          · exact hxr ▸ hgt'
          · have := h2 x (hw.2 ▸ hxrest)
            rwa [← hw.1] at this
      | cons a l1' =>
        have ha : b = a ∧ rest = l1' ++ w :: l2 := by
          rw [List.cons_append] at hsplit
          simpa using hsplit
        have hwmem : w ∈ rest := by
          rw [ha.2]; exact List.mem_append_right _ (List.mem_cons_self w l2)
        obtain ⟨tw, htw⟩ := Option.isSome_iff_exists.mp (hsub w (List.mem_cons_of_mem b hwmem))
        have hwb : dateGt w.timestampMs b.timestampMs = true := by
          apply h1 b; rw [← ha.1]; exact List.mem_cons_self _ _
        refine ⟨b :: r :: l1', l2, w, hstep.trans hbest, ?_, ?_, h2⟩
        · rw [List.cons_append, List.cons_append, ← ha.2]
        · intro x hx
          rcases List.mem_cons.mp hx with hxb | hx'
          · exact hxb ▸ hwb
          rcases List.mem_cons.mp hx' with hxr | hxl1'
          · subst hxr
            rw [htb, htw, dateGt_some_some, decide_eq_true_eq] at hwb
            rw [htb, htr, dateGt_some_some] at hgt'
            have hle : tr ≤ tb := by
              have := of_decide_eq_false hgt'
              exact le_of_not_lt this
            rw [htr, htw, dateGt_some_some, decide_eq_true_eq]
            exact lt_of_le_of_lt hle hwb
          · exact h1 x (List.mem_cons_of_mem a hxl1')

lemma jsMin_fin (a b : ℚ) : jsMin (.fin a) (.fin b) = .fin (min a b) := by
  by_cases h : b < a
  · simp [jsMin, jsLt, h, min_eq_right h.le]
  · simp [jsMin, jsLt, h, min_eq_left (not_lt.mp h)]

lemma jsMax_fin (a b : ℚ) : jsMax (.fin a) (.fin b) = .fin (max a b) := by
  by_cases h : a < b
  · simp [jsMax, jsLt, h, max_eq_right h.le]
  · simp [jsMax, jsLt, h, max_eq_left (not_lt.mp h)]

lemma windowMinutesOf_ne_posInf (rl : RateLimit)
    (h : rl.window_minutes ≠ some JSVal.posInf) :
    ∃ q : ℚ, 0 ≤ q ∧ windowMinutesOf rl = .fin q := by
  cases hwm : rl.window_minutes with
  | none => exact ⟨0, le_refl 0, by simp [windowMinutesOf, hwm]⟩
  | some v =>
    cases v with
    | nan => exact ⟨0, le_refl 0, by simp [windowMinutesOf, hwm, jsLt]⟩
    | posInf => exact absurd hwm h
    | negInf => exact ⟨0, le_refl 0, by simp [windowMinutesOf, hwm, jsLt]⟩
    | fin q =>
      by_cases hq : 0 < q
      · exact ⟨q, hq.le, by simp [windowMinutesOf, hwm, jsLt, hq]⟩
      · exact ⟨0, le_refl 0, by simp [windowMinutesOf, hwm, jsLt, hq]⟩

lemma timePercentOf_fin (c : CalcReset) (q : ℚ) :
    ∃ t : ℚ, timePercentOf c (.fin q) = .fin t := by
  by_cases h1 : jsLe (jsMul (.fin q) (.fin 60)) (.fin 0) = true
  · exact ⟨0, by simp [timePercentOf, h1]⟩
  · have h1' : jsLe (jsMul (.fin q) (.fin 60)) (.fin 0) = false := by simpa using h1
    by_cases h2 : c.isOutdated = true
    · exact ⟨100, by simp [timePercentOf, h1', h2]⟩
    · have h2' : c.isOutdated = false := by simpa using h2
      have hmul : jsMul (.fin q) (.fin 60) = .fin (q * 60) := rfl
      have hne : (q * 60 : ℚ) ≠ 0 := by
        intro he
        rw [hmul, he] at h1'
        simp [jsLe] at h1'
      refine ⟨max 0 (min (q * 60) (q * 60 - (c.secondsUntilReset : ℚ))) / (q * 60) * 100, ?_⟩
      simp [timePercentOf, h1', h2', hmul, jsSub, jsMin_fin, jsMax_fin, jsDiv, hne, jsMul]
      intro hc
      exact Or.inl (by simpa [jsLe] using hc)

/-- A raw window with no reset data at all but a positive 60-minute window
duration. -/
def rlNoReset60 : RateLimit :=
  { used_percent := some (.fin 42), resets_at := none, resets_in_seconds := none,
    window_minutes := some (.fin 60) }

/-- A raw window whose absolute reset instant is the epoch and whose
`window_minutes` field is absent. -/
def rlPastNoWindow : RateLimit :=
  { used_percent := none, resets_at := some (.fin 0), resets_in_seconds := none,
    window_minutes := none }

/-- A raw window whose absolute reset instant is the epoch, with a positive
60-minute window duration. -/
def rlPast60 : RateLimit :=
  { used_percent := none, resets_at := some (.fin 0), resets_in_seconds := none,
    window_minutes := some (.fin 60) }

/-- A raw window with a negative `window_minutes` field. -/
def rlWmNeg : RateLimit :=
  { used_percent := none, resets_at := none, resets_in_seconds := none,
    window_minutes := some (.fin (-5)) }

/-- A raw window carrying only the absolute `resets_at = 3600` encoding. -/
def rlAbs3600 : RateLimit :=
  { used_percent := none, resets_at := some (.fin 3600), resets_in_seconds := none,
    window_minutes := none }

/-- A raw window carrying only the relative `resets_in_seconds = 3600`
encoding. -/
def rlRel3600 : RateLimit :=
  { used_percent := none, resets_at := none, resets_in_seconds := some (.fin 3600),
    window_minutes := none }

/-- A raw window with a future absolute reset instant and a
`window_minutes` field holding `Infinity` (a JSON overflow literal such as
`1e999`). -/
def rlInfWindow : RateLimit :=
  { used_percent := some (.fin 1), resets_at := some (.fin 3600),
    resets_in_seconds := none, window_minutes := some JSVal.posInf }

/-- C1 (amended): when neither reset field is numeric the normalizer returns
a window whose reset instant equals the record timestamp and whose outdated
flag is true; but time-percent and window-minutes still follow the
window-minutes rule: both are 0 when the raw `window_minutes` is absent or
not greater than zero, while a `window_minutes` greater than zero (a finite
positive value or `Infinity`) is kept as-is and, the window being outdated,
forces time-percent 100 — not 0/0 regardless of the raw field as claimed. -/
theorem c1_resolution_failure_window (recordTs : Option ℤ) (nowMs : ℤ) (rl : RateLimit)
    (h1 : rl.resets_at = none) (h2 : rl.resets_in_seconds = none) :
    (normalizeWindow recordTs nowMs rl).reset_time = recordTs ∧
    (normalizeWindow recordTs nowMs rl).outdated = true ∧
    ((rl.window_minutes = none ∨
        ∃ v, rl.window_minutes = some v ∧ jsLt (.fin 0) v = false) →
      (normalizeWindow recordTs nowMs rl).time_percent = .fin 0 ∧
      (normalizeWindow recordTs nowMs rl).window_minutes = .fin 0) ∧
    (∀ v : JSVal, rl.window_minutes = some v → jsLt (.fin 0) v = true →
      (normalizeWindow recordTs nowMs rl).time_percent = .fin 100 ∧
      (normalizeWindow recordTs nowMs rl).window_minutes = v) := by
  have hres : resolveResetTime recordTs rl = none := by
    simp [resolveResetTime, resolveFromRelative, h1, h2]
  refine ⟨?_, ?_, ?_, ?_⟩
  · simp [normalizeWindow, calculateResetTime, hres]
  · simp [normalizeWindow, calculateResetTime, hres]
  · rintro (hwm | ⟨v, hwm, hv⟩)
    · have hwmv : windowMinutesOf rl = .fin 0 := by simp [windowMinutesOf, hwm]
      constructor <;>
        norm_num [normalizeWindow, timePercentOf, calculateResetTime, hres, hwmv,
          jsMul, jsLe, jsMin, jsMax, jsLt]
    · have hwmv : windowMinutesOf rl = .fin 0 := by simp [windowMinutesOf, hwm, hv]
      constructor <;>
        norm_num [normalizeWindow, timePercentOf, calculateResetTime, hres, hwmv,
          jsMul, jsLe, jsMin, jsMax, jsLt]
  · intro v hwm hv
    have hwmv : windowMinutesOf rl = v := by simp [windowMinutesOf, hwm, hv]
    cases v with
    | nan => simp [jsLt] at hv
    | negInf => simp [jsLt] at hv
    | posInf =>
      constructor
      · norm_num [normalizeWindow, timePercentOf, calculateResetTime, hres, hwmv,
          jsMul, jsLe, jsMin, jsMax, jsLt]
      · simp [normalizeWindow, hwmv]
    | fin q =>
      have hq : 0 < q := by simpa [jsLt] using hv
      have hws : ¬ (q * 60 ≤ 0) := not_le.mpr (by positivity)
      constructor
      · norm_num [normalizeWindow, timePercentOf, calculateResetTime, hres, hwmv,
          jsMul, jsLe, jsMin, jsMax, jsLt, hws]
      · simp [normalizeWindow, hwmv]

/-- C1 counterexample: a descriptor with no reset data but
`window_minutes = 60` yields time-percent 100 and window-minutes 60, not
time-percent 0 and window-minutes 0 as the claim states. -/
theorem c1_counterexample :
    rlNoReset60.resets_at = none ∧ rlNoReset60.resets_in_seconds = none ∧
    (normalizeWindow (some 0) 0 rlNoReset60).time_percent = .fin 100 ∧
    (normalizeWindow (some 0) 0 rlNoReset60).window_minutes = .fin 60 := by
  refine ⟨rfl, rfl, ?_, ?_⟩ <;>
    norm_num [normalizeWindow, timePercentOf, windowMinutesOf, calculateResetTime,
      resolveResetTime, resolveFromRelative, rlNoReset60, jsMul, jsLe, jsMin, jsMax, jsLt]

/-- C1 witness: the amended theorem applied to `rlNoReset60` at record
timestamp 0 and evaluation instant 0. -/
theorem c1_witness :
    (normalizeWindow (some 0) 0 rlNoReset60).reset_time = some 0 ∧
    (normalizeWindow (some 0) 0 rlNoReset60).outdated = true ∧
    (normalizeWindow (some 0) 0 rlNoReset60).time_percent = .fin 100 :=
  ⟨(c1_resolution_failure_window (some 0) 0 rlNoReset60 rfl rfl).1,
   (c1_resolution_failure_window (some 0) 0 rlNoReset60 rfl rfl).2.1,
   ((c1_resolution_failure_window (some 0) 0 rlNoReset60 rfl rfl).2.2.2 (.fin 60) rfl
     (by norm_num [jsLt])).1⟩

/-- C2 (amended): when the reset instant resolves successfully and lies
strictly before the evaluation instant, the normalized window has
`outdated = true`; its time-percent is 100 provided the raw
`window_minutes` is greater than zero (when `window_minutes` is absent,
`NaN`, zero or negative, the time-percent is 0 even for an outdated
window). -/
theorem c2_outdated_window (recordTs : Option ℤ) (nowMs : ℤ) (rl : RateLimit) (m : ℤ)
    (hres : resolveResetTime recordTs rl = some (some m)) (hlt : m < nowMs) :
    (normalizeWindow recordTs nowMs rl).outdated = true ∧
    (∀ v : JSVal, rl.window_minutes = some v → jsLt (.fin 0) v = true →
      (normalizeWindow recordTs nowMs rl).time_percent = .fin 100) := by
  constructor
  · simp [normalizeWindow, calculateResetTime, hres, hlt]
  · intro v hwm hv
    have hwmv : windowMinutesOf rl = v := by simp [windowMinutesOf, hwm, hv]
    cases v with
    | nan => simp [jsLt] at hv
    | negInf => simp [jsLt] at hv
    | posInf =>
      norm_num [normalizeWindow, timePercentOf, calculateResetTime, hres, hlt, hwmv,
        jsMul, jsLe, jsMin, jsMax, jsLt]
    | fin q =>
      have hq : 0 < q := by simpa [jsLt] using hv
      have hws : ¬ (q * 60 ≤ 0) := not_le.mpr (by positivity)
      norm_num [normalizeWindow, timePercentOf, calculateResetTime, hres, hlt, hwmv,
        jsMul, jsLe, jsMin, jsMax, jsLt, hws]

/-- C2 counterexample: a window resolving to reset instant 0, evaluated at
5000 ms, with `window_minutes` absent: it is outdated but its time-percent
is 0, not 100 as the claim states. -/
theorem c2_counterexample :
    resolveResetTime (some 0) rlPastNoWindow = some (some 0) ∧
    ((0 : ℤ) < 5000) ∧
    (normalizeWindow (some 0) 5000 rlPastNoWindow).outdated = true ∧
    (normalizeWindow (some 0) 5000 rlPastNoWindow).time_percent = .fin 0 ∧
    (normalizeWindow (some 0) 5000 rlPastNoWindow).time_percent ≠ .fin 100 := by
  norm_num [normalizeWindow, timePercentOf, windowMinutesOf, calculateResetTime,
    resolveResetTime, rlPastNoWindow, dateFromJS, dateFromQ, MAX_TIME_MS, truncQ,
    JSVal.isNaN, jsMul, jsLe, jsMin, jsMax, jsLt]

/-- C2 witness: the amended theorem applied to `rlPast60` (reset instant 0,
window 60 minutes) evaluated at 5000 ms. -/
theorem c2_witness :
    resolveResetTime (some 0) rlPast60 = some (some 0) ∧
    ((0 : ℤ) < 5000) ∧
    (normalizeWindow (some 0) 5000 rlPast60).outdated = true ∧
    (normalizeWindow (some 0) 5000 rlPast60).time_percent = .fin 100 :=
  ⟨by norm_num [resolveResetTime, rlPast60, dateFromJS, dateFromQ, MAX_TIME_MS,
      truncQ, JSVal.isNaN, jsMul],
   by norm_num,
   (c2_outdated_window (some 0) 5000 rlPast60 0
     (by norm_num [resolveResetTime, rlPast60, dateFromJS, dateFromQ, MAX_TIME_MS,
       truncQ, JSVal.isNaN, jsMul])
     (by norm_num)).1,
   (c2_outdated_window (some 0) 5000 rlPast60 0
     (by norm_num [resolveResetTime, rlPast60, dateFromJS, dateFromQ, MAX_TIME_MS,
       truncQ, JSVal.isNaN, jsMul])
     (by norm_num)).2 (.fin 60) rfl (by norm_num [jsLt])⟩

/-- C5: the reset instant is resolved with a fixed preference order —
`resets_at` is used whenever present and numeric (not `NaN`), otherwise the
record timestamp plus `resets_in_seconds` when that field is present and
numeric, otherwise resolution fails: `calculateResetTime` agrees with the
one-pass preference-order resolution `specResolveReset` in every case. -/
theorem c5_reset_preference_order (recordTs : Option ℤ) (nowMs : ℤ) (rl : RateLimit) :
    calculateResetTime recordTs nowMs rl =
      match specResolveReset recordTs rl with
      | some m =>
        { resetTime := some m
          isOutdated := decide (m < nowMs)
          secondsUntilReset := max 0 ((m - nowMs).fdiv 1000) }
      | none => { resetTime := recordTs, isOutdated := true, secondsUntilReset := 0 } := by
  rcases rl with ⟨up, ra, ris, wm⟩
  cases ra with
  | some v =>
    cases hv : v.isNaN
    · cases h : dateFromJS (jsMul v (.fin 1000)) <;>
        simp [calculateResetTime, resolveResetTime, specResolveReset, usableNum, hv, h]
    · cases ris with
      | some w =>
        cases hw : w.isNaN
        · cases h : dateFromJS (jsAdd (dateVal recordTs) (jsMul w (.fin 1000))) <;>
            simp [calculateResetTime, resolveResetTime, resolveFromRelative,
              specResolveReset, usableNum, hv, hw, h]
        · simp [calculateResetTime, resolveResetTime, resolveFromRelative,
            specResolveReset, usableNum, hv, hw]
      | none =>
        simp [calculateResetTime, resolveResetTime, resolveFromRelative,
          specResolveReset, usableNum, hv]
  | none =>
    cases ris with
    | some w =>
      cases hw : w.isNaN
      · cases h : dateFromJS (jsAdd (dateVal recordTs) (jsMul w (.fin 1000))) <;>
          simp [calculateResetTime, resolveResetTime, resolveFromRelative,
            specResolveReset, usableNum, hw, h]
      · simp [calculateResetTime, resolveResetTime, resolveFromRelative,
          specResolveReset, usableNum, hw]
    | none =>
      simp [calculateResetTime, resolveResetTime, resolveFromRelative,
        specResolveReset, usableNum]

/-- C6: an absent, non-numeric, `NaN`, zero or negative `window_minutes`
gives time-percent 0 regardless of the reset data and normalized
window-minutes 0; a `window_minutes` greater than zero (finite or
`Infinity`) is used as-is. -/
theorem c6_window_minutes_rule (recordTs : Option ℤ) (nowMs : ℤ) (rl : RateLimit) :
    ((rl.window_minutes = none ∨
        ∃ v, rl.window_minutes = some v ∧ jsLt (.fin 0) v = false) →
      (normalizeWindow recordTs nowMs rl).time_percent = .fin 0 ∧
      (normalizeWindow recordTs nowMs rl).window_minutes = .fin 0) ∧
    (∀ v : JSVal, rl.window_minutes = some v → jsLt (.fin 0) v = true →
      (normalizeWindow recordTs nowMs rl).window_minutes = v) := by
  constructor
  · rintro (hwm | ⟨v, hwm, hv⟩)
    · have hwmv : windowMinutesOf rl = .fin 0 := by simp [windowMinutesOf, hwm]
      constructor <;>
        norm_num [normalizeWindow, timePercentOf, hwmv, jsMul, jsLe, jsMin, jsMax, jsLt]
    · have hwmv : windowMinutesOf rl = .fin 0 := by simp [windowMinutesOf, hwm, hv]
      constructor <;>
        norm_num [normalizeWindow, timePercentOf, hwmv, jsMul, jsLe, jsMin, jsMax, jsLt]
  · intro v hwm hv
    simp [normalizeWindow, windowMinutesOf, hwm, hv]

/-- C6 witness: the theorem applied to a negative-window descriptor and to
a positive 60-minute descriptor. -/
theorem c6_witness :
    ((normalizeWindow (some 0) 0 rlWmNeg).time_percent = .fin 0 ∧
      (normalizeWindow (some 0) 0 rlWmNeg).window_minutes = .fin 0) ∧
    (normalizeWindow (some 0) 5000 rlPast60).window_minutes = .fin 60 :=
  ⟨(c6_window_minutes_rule (some 0) 0 rlWmNeg).1
      (Or.inr ⟨.fin (-5), rfl, by norm_num [jsLt]⟩),
   (c6_window_minutes_rule (some 0) 5000 rlPast60).2 (.fin 60) rfl (by norm_num [jsLt])⟩

/-- C7 (amended): the used-percent field of every normalized window is the
raw record's `used_percent`, unmodified; and the time-percent lies in
[0, 100] for every window whose raw `window_minutes` is not
positive-Infinity — in particular for every finite `window_minutes`.  The
claim's range invariant fails in exactly the dropped case: with
`window_minutes = Infinity` (a JSON overflow literal) and a successfully
resolved reset instant that is not in the past, the source computes
`Infinity / Infinity`, and the emitted time-percent is `NaN`, which lies
outside [0, 100]. -/
theorem c7_time_percent_range (recordTs : Option ℤ) (nowMs : ℤ) (rl : RateLimit) :
    (normalizeWindow recordTs nowMs rl).used_percent = rl.used_percent ∧
    (rl.window_minutes ≠ some JSVal.posInf →
      jsLe (.fin 0) (normalizeWindow recordTs nowMs rl).time_percent = true ∧
      jsLe (normalizeWindow recordTs nowMs rl).time_percent (.fin 100) = true) ∧
    (∀ m : ℤ, rl.window_minutes = some JSVal.posInf →
      resolveResetTime recordTs rl = some (some m) → nowMs ≤ m →
      (normalizeWindow recordTs nowMs rl).time_percent = JSVal.nan) := by
  refine ⟨rfl, ?_, ?_⟩
  · intro h
    obtain ⟨q, hq0, hq⟩ := windowMinutesOf_ne_posInf rl h
    obtain ⟨t, ht⟩ := timePercentOf_fin (calculateResetTime recordTs nowMs rl) q
    have htp : (normalizeWindow recordTs nowMs rl).time_percent
        = .fin (max 0 (min 100 t)) := by
      simp [normalizeWindow, hq, ht, jsMin_fin, jsMax_fin]
    rw [htp]
    constructor
    · simp only [jsLe, decide_eq_true_eq]
      exact le_max_left _ _
    · simp only [jsLe, decide_eq_true_eq]
      exact max_le (by norm_num) (min_le_left _ _)
  · intro m hwm hres hle
    have hout : (calculateResetTime recordTs nowMs rl).isOutdated = false := by
      simp only [calculateResetTime, hres, decide_eq_false_iff_not]
      omega
    have hwmv : windowMinutesOf rl = JSVal.posInf := by
      simp [windowMinutesOf, hwm, jsLt]
    norm_num [normalizeWindow, timePercentOf, hwmv, hout, jsMul, jsLe, jsSub,
      jsMin, jsMax, jsDiv, jsLt]

/-- C7 counterexample: with `window_minutes = Infinity` (JSON overflow
literal) and a valid future reset instant, the normalized window's
time-percent is `NaN`, which does not lie in [0, 100] — both bound checks
are false. -/
theorem c7_counterexample :
    (normalizeWindow (some 0) 0 rlInfWindow).time_percent = JSVal.nan ∧
    jsLe (.fin 0) (normalizeWindow (some 0) 0 rlInfWindow).time_percent = false ∧
    jsLe (normalizeWindow (some 0) 0 rlInfWindow).time_percent (.fin 100) = false := by
  norm_num [normalizeWindow, timePercentOf, windowMinutesOf, calculateResetTime,
    resolveResetTime, rlInfWindow, dateFromJS, dateFromQ, MAX_TIME_MS, truncQ,
    JSVal.isNaN, jsMul, jsLe, jsSub, jsMin, jsMax, jsDiv, jsLt, Int.fdiv]

/-- C7 witness: the amended theorem applied to the finite-window descriptor
`rlPast60` and, for the `NaN` clause, to the `Infinity`-window descriptor
`rlInfWindow` with its reset instant 3600000 ms not in the past. -/
theorem c7_witness :
    ((normalizeWindow (some 0) 5000 rlPast60).used_percent = rlPast60.used_percent) ∧
    (jsLe (.fin 0) (normalizeWindow (some 0) 5000 rlPast60).time_percent = true ∧
      jsLe (normalizeWindow (some 0) 5000 rlPast60).time_percent (.fin 100) = true) ∧
    (normalizeWindow (some 0) 0 rlInfWindow).time_percent = JSVal.nan :=
  ⟨(c7_time_percent_range (some 0) 5000 rlPast60).1,
   (c7_time_percent_range (some 0) 5000 rlPast60).2.1 (by simp [rlPast60]),
   (c7_time_percent_range (some 0) 0 rlInfWindow).2.2 3600000 rfl
     (by norm_num [resolveResetTime, rlInfWindow, dateFromJS, dateFromQ, MAX_TIME_MS,
       truncQ, JSVal.isNaN, jsMul])
     (by norm_num)⟩

/-- C8: two descriptors identical except that one carries `resets_at` and
the other an equivalent `resets_in_seconds` relative to the same record
timestamp resolve to the same reset instant (equal, hence within one
second). -/
theorem c8_absolute_relative_equivalence (t nowMs : ℤ) (s r : ℚ) (rlA rlB : RateLimit)
    (hA : rlA.resets_at = some (.fin s))
    (hB1 : rlB.resets_at = none) (hB2 : rlB.resets_in_seconds = some (.fin r))
    (heq : s * 1000 = (t : ℚ) + r * 1000) :
    (normalizeWindow (some t) nowMs rlA).reset_time =
      (normalizeWindow (some t) nowMs rlB).reset_time ∧
    (calculateResetTime (some t) nowMs rlA).resetTime =
      (calculateResetTime (some t) nowMs rlB).resetTime := by
  have hres : resolveResetTime (some t) rlA = resolveResetTime (some t) rlB := by
    simp [resolveResetTime, resolveFromRelative, hA, hB1, hB2, JSVal.isNaN,
      dateFromJS, dateVal, jsMul, jsAdd, heq]
  have hcalc : calculateResetTime (some t) nowMs rlA =
      calculateResetTime (some t) nowMs rlB := by
    unfold calculateResetTime
    rw [hres]
  constructor
  · simp only [normalizeWindow]
    rw [hcalc]
  · rw [hcalc]

/-- C8 witness: `resets_at = 3600` and `resets_in_seconds = 3600` relative
to record timestamp 0 resolve to the same instant. -/
theorem c8_witness :
    rlAbs3600.resets_at = some (.fin 3600) ∧
    rlRel3600.resets_at = none ∧
    rlRel3600.resets_in_seconds = some (.fin 3600) ∧
    ((3600 : ℚ) * 1000 = ((0 : ℤ) : ℚ) + 3600 * 1000) ∧
    (normalizeWindow (some 0) 0 rlAbs3600).reset_time =
      (normalizeWindow (some 0) 0 rlRel3600).reset_time :=
  ⟨rfl, rfl, rfl, by norm_num,
   (c8_absolute_relative_equivalence 0 0 3600 3600 rlAbs3600 rlRel3600 rfl rfl rfl
     (by norm_num)).1⟩


/-- A payload with neither rate limits nor usage info. -/
def payEmpty : TokenCountPayload := { rate_limits := none, info := none }

/-- A payload carrying an (empty) usage-info section, to make records
distinguishable from `payEmpty` ones. -/
def payInfo : TokenCountPayload :=
  { rate_limits := none, info := some { total_token_usage := none, last_token_usage := none } }

/-- A qualifying record whose timestamp string does not parse as an
instant. -/
def recBadTs : EventRecord := { timestampMs := none, payload := payEmpty }

/-- Qualifying record with timestamp 1 ms. -/
def recT1 : EventRecord := { timestampMs := some 1, payload := payEmpty }

/-- Qualifying record with timestamp 2 ms. -/
def recT2 : EventRecord := { timestampMs := some 2, payload := payEmpty }

/-- Qualifying record with timestamp 3 ms. -/
def recT3 : EventRecord := { timestampMs := some 3, payload := payEmpty }

/-- Qualifying record with timestamp 5 ms. -/
def recT5a : EventRecord := { timestampMs := some 5, payload := payEmpty }

/-- A second, distinct qualifying record with the same timestamp 5 ms. -/
def recT5b : EventRecord := { timestampMs := some 5, payload := payInfo }

/-- C3 (amended): lines that are not valid JSON are silently skipped
without aborting the scan, and a file with three qualifying lines at
timestamps T1 < T2 < T3 yields the T3 record; however a qualifying line
whose timestamp string is not parseable is NOT ineligible: it becomes an
Invalid-Date candidate, is selected when it is the first qualifying line,
and is never displaced afterward, because every comparison against its NaN
time value is false. -/
theorem c3_reader_latest_record :
    (∀ pre post : List SessionLine,
      parseSessionFile (pre ++ SessionLine.malformed :: post) =
        parseSessionFile (pre ++ post)) ∧
    (∀ r1 r2 r3 : EventRecord, ∀ t1 t2 t3 : ℤ,
      r1.timestampMs = some t1 → r2.timestampMs = some t2 → r3.timestampMs = some t3 →
      t1 < t2 → t2 < t3 →
      parseSessionFile
        [SessionLine.qualifying r1, SessionLine.qualifying r2, SessionLine.qualifying r3] =
        some r3) ∧
    (∀ r : EventRecord, ∀ rest : List SessionLine, r.timestampMs = none →
      parseSessionFile (SessionLine.qualifying r :: rest) = some r) := by
  refine ⟨?_, ?_, ?_⟩
  · intro pre post
    simp [parseSessionFile, List.foldl_append, psfStep]
  · intro r1 r2 r3 t1 t2 t3 h1 h2 h3 h12 h23
    simp [parseSessionFile, psfStep, h1, h2, h3, dateGt_some_some, h12, h23]
  · intro r rest h
    unfold parseSessionFile
    rw [List.foldl_cons]
    have hstep : psfStep none (.qualifying r) = some (none, r) := by
      simp [psfStep, h]
    rw [hstep, foldl_psfStep_noneTs]
    rfl

/-- C3 counterexample: a file whose single line is a qualifying record with
an unparseable timestamp returns that record — such a line is eligible to
be returned, contrary to the claim. -/
theorem c3_counterexample :
    recBadTs.timestampMs = none ∧
    parseSessionFile [SessionLine.qualifying recBadTs] = some recBadTs :=
  ⟨rfl, rfl⟩

/-- C3 witness: the amended theorem applied to three records at timestamps
1 < 2 < 3 and to an unparseable-timestamp record followed by another
line. -/
theorem c3_witness :
    parseSessionFile
      [SessionLine.qualifying recT1, SessionLine.qualifying recT2,
        SessionLine.qualifying recT3] = some recT3 ∧
    parseSessionFile [SessionLine.qualifying recBadTs, SessionLine.nonQualifying] =
      some recBadTs :=
  ⟨c3_reader_latest_record.2.1 recT1 recT2 recT3 1 2 3 rfl rfl rfl (by norm_num)
      (by norm_num),
   c3_reader_latest_record.2.2 recBadTs [SessionLine.nonQualifying] rfl⟩

/-- C10 (amended): for every file in which every qualifying record's
timestamp parses, the reader returns a qualifying record `w` such that
every qualifying record on an earlier line has a strictly smaller timestamp
and no qualifying record on a later line has a strictly greater one — the
replacement comparison is strict, so later lines with a timestamp equal to
the current best never displace it and the earliest of the records sharing
the maximal timestamp wins.  (For files with an unparseable qualifying
timestamp the original claim fails, see the counterexample.) -/
theorem c10_ties_keep_earliest (lines : List SessionLine)
    (hsome : ∀ x ∈ qualRecords lines, x.timestampMs.isSome = true)
    (hne : qualRecords lines ≠ []) :
    ∃ l1 l2 w, parseSessionFile lines = some w ∧
      qualRecords lines = l1 ++ w :: l2 ∧
      (∀ x ∈ l1, dateGt w.timestampMs x.timestampMs = true) ∧
      (∀ x ∈ l2, dateGt x.timestampMs w.timestampMs = false) := by
  rw [parseSessionFile_eq_bestRecord]
  cases hql : qualRecords lines with
  | nil => exact absurd hql hne
  | cons b recs =>
    have h := bestRecordAux_firstMax recs b (by rw [← hql]; exact hsome)
    obtain ⟨l1, l2, w, hbest, hsplit, h1, h2⟩ := h
    exact ⟨l1, l2, w, hbest, hsplit, h1, h2⟩

/-- C10 counterexample: a file whose first qualifying line has an
unparseable timestamp, followed by two distinct qualifying records sharing
the same maximal timestamp 5: the reader returns the unparseable-timestamp
record, not the earliest of the records sharing the maximal timestamp. -/
theorem c10_counterexample :
    parseSessionFile
      [SessionLine.qualifying recBadTs, SessionLine.qualifying recT5a,
        SessionLine.qualifying recT5b] = some recBadTs ∧
    recT5a.timestampMs = recT5b.timestampMs ∧
    recBadTs ≠ recT5a ∧ recBadTs ≠ recT5b := by
  refine ⟨rfl, rfl, ?_, ?_⟩
  · intro h
    have := congrArg EventRecord.timestampMs h
    simp [recBadTs, recT5a] at this
  · intro h
    have := congrArg EventRecord.timestampMs h
    simp [recBadTs, recT5b] at this

/-- C10 witness: the amended theorem applied to a two-line file whose
qualifying records share timestamp 5. -/
theorem c10_witness :
    ∃ l1 l2 w,
      parseSessionFile [SessionLine.qualifying recT5a, SessionLine.qualifying recT5b] =
        some w ∧
      qualRecords [SessionLine.qualifying recT5a, SessionLine.qualifying recT5b] =
        l1 ++ w :: l2 ∧
      (∀ x ∈ l1, dateGt w.timestampMs x.timestampMs = true) ∧
      (∀ x ∈ l2, dateGt x.timestampMs w.timestampMs = false) :=
  c10_ties_keep_earliest
    [SessionLine.qualifying recT5a, SessionLine.qualifying recT5b]
    (by
      intro x hx
      simp [qualRecords] at hx
      rcases hx with h | h <;> subst h <;> rfl)
    (by simp [qualRecords])

lemma scanFiles_append (fs : SessionFS) (a b : List (String × ℤ)) :
    scanFiles fs (a ++ b) =
      match scanFiles fs a with
      | some res => some res
      | none => scanFiles fs b := by
  induction a with
  | nil => simp [scanFiles]
  | cons p rest ih =>
    obtain ⟨f, m⟩ := p
    cases h : parseSessionFile (fs.content f) <;> simp [scanFiles, h, ih]

lemma scanFiles_first_hit (fs : SessionFS) :
    ∀ (l : List (String × ℤ)) (f : String) (r : EventRecord),
      scanFiles fs l = some (f, r) →
      parseSessionFile (fs.content f) = some r ∧
      ∃ l1 mt l2, l = l1 ++ (f, mt) :: l2 ∧
        ∀ p ∈ l1, parseSessionFile (fs.content p.1) = none := by
  intro l
  induction l with
  | nil => intro f r h; simp [scanFiles] at h
  | cons p rest ih =>
    intro f r h
    obtain ⟨g, m⟩ := p
    cases hg : parseSessionFile (fs.content g) with
    | some r' =>
      simp [scanFiles, hg] at h
      obtain ⟨hgf, hr⟩ := h
      subst hgf; subst hr
      exact ⟨hg, [], m, rest, rfl, by simp⟩
    | none =>
      simp only [scanFiles, hg] at h
      obtain ⟨hp, l1, mt, l2, hsplit, hnone⟩ := ih f r h
      refine ⟨hp, (g, m) :: l1, mt, l2, by rw [List.cons_append, ← hsplit], ?_⟩
      intro p hpmem
      rcases List.mem_cons.mp hpmem with hpg | hpl1
      · rw [hpg]; exact hg
      · exact hnone p hpl1

/-- Qualifying record with event timestamp 100 ms, stored in the file with
the larger modification time. -/
def exRecA : EventRecord := { timestampMs := some 100, payload := payEmpty }

/-- Qualifying record with the globally newest event timestamp 200 ms,
stored in the file with the smaller modification time. -/
def exRecB : EventRecord := { timestampMs := some 200, payload := payEmpty }

/-- A session tree with two files: `fileA` (mtime 10, record at event
timestamp 100) and `fileB` (mtime 5, record at event timestamp 200). -/
def exFS : SessionFS :=
  { rootExists := true
    todayDirExists := true
    todayFiles := [("fileA", 10), ("fileB", 5)]
    allFiles := [("fileA", 10), ("fileB", 5)]
    content := fun f =>
      if f = "fileA" then [SessionLine.qualifying exRecA]
      else if f = "fileB" then [SessionLine.qualifying exRecB]
      else [] }

/-- C4: with the session root present, the two-phase resolver equals a scan
of the single concatenated order — phase-1 files (today's directory, mtime
within the last hour, mtime descending) followed by the full 7-day
candidate list in mtime-descending order with already-attempted files
skipped — and the winner is the earliest file in that order yielding any
qualifying record (every earlier file yields none); the concrete `exFS`
shows the winner need not hold the globally newest event timestamp. -/
theorem c4_two_phase_resolver (fs : SessionFS) (nowMs : ℤ) (h : fs.rootExists = true) :
    findLatestTokenCountRecord fs nowMs = scanFiles fs (scanOrder fs nowMs) ∧
    (∀ f r, findLatestTokenCountRecord fs nowMs = some (f, r) →
      parseSessionFile (fs.content f) = some r ∧
      ∃ l1 mt l2, scanOrder fs nowMs = l1 ++ (f, mt) :: l2 ∧
        ∀ p ∈ l1, parseSessionFile (fs.content p.1) = none) ∧
    (findLatestTokenCountRecord exFS 10 = some ("fileA", exRecA) ∧
      parseSessionFile (exFS.content "fileB") = some exRecB ∧
      dateGt exRecB.timestampMs exRecA.timestampMs = true) := by
  have heq : findLatestTokenCountRecord fs nowMs = scanFiles fs (scanOrder fs nowMs) := by
    unfold findLatestTokenCountRecord scanOrder
    rw [h, scanFiles_append]
    simp
  refine ⟨heq, fun f r hfr => ?_, ?_, ?_, ?_⟩
  · rw [heq] at hfr
    exact scanFiles_first_hit fs _ f r hfr
  · rfl
  · rfl
  · rfl

/-- C4 witness: the theorem applied to the concrete session tree `exFS` at
evaluation instant 10 ms. -/
theorem c4_witness :
    exFS.rootExists = true ∧
    findLatestTokenCountRecord exFS 10 = scanFiles exFS (scanOrder exFS 10) :=
  ⟨rfl, (c4_two_phase_resolver exFS 10 rfl).1⟩

/-- A session tree whose root directory does not exist. -/
def fsMissing : SessionFS :=
  { rootExists := false, todayDirExists := false, todayFiles := [], allFiles := [],
    content := fun _ => [] }

/-- A session tree whose root exists but contains no files at all. -/
def fsEmpty : SessionFS :=
  { rootExists := true, todayDirExists := false, todayFiles := [], allFiles := [],
    content := fun _ => [] }

/-- C9 (amended): when the session root does not exist the query returns a
not-found result (never a thrown error), but its reason is the fixed
generic string `No token_count events found in session files`; the absence
of the path is only logged, not described by the returned reason. -/
theorem c9_missing_root_generic_reason (fs : SessionFS) (nowMs : ℤ)
    (h : fs.rootExists = false) :
    getRateLimitData fs nowMs =
      ParseResult.failure ("No token_count events found in session files") := by
  unfold getRateLimitData findLatestTokenCountRecord
  rw [h]
  simp

/-- C9 counterexample: the reason returned for a missing root is exactly
the one returned when the root exists but holds no data, so it cannot
describe the absence of the path. -/
theorem c9_counterexample :
    fsMissing.rootExists = false ∧
    fsEmpty.rootExists = true ∧
    getRateLimitData fsMissing 0 =
      ParseResult.failure ("No token_count events found in session files") ∧
    getRateLimitData fsMissing 0 = getRateLimitData fsEmpty 0 :=
  ⟨rfl, rfl, rfl, rfl⟩

/-- C9 witness: the amended theorem applied to the concrete missing-root
tree `fsMissing`. -/
theorem c9_witness :
    fsMissing.rootExists = false ∧
    getRateLimitData fsMissing 0 =
      ParseResult.failure ("No token_count events found in session files") :=
  ⟨rfl, c9_missing_root_generic_reason fsMissing 0 rfl⟩
